import Mathlib

/-!
Verification of the flappy-capybara game core (src/index.js) against its
natural-language specification.

The JavaScript source is shallowly embedded: JS numbers are modelled as
exact rationals (ℚ), plain-object records become structures, the mutable
pipe array becomes a `List Pipe` threaded through the frame functions, and
`Math.random()` values are passed in explicitly as parameters in `[0, 1)`.
Rendering, audio and DOM wiring (canvas drawing, `Image` loading, the
cosmetic scrolling background queue, sprite-frame counters) have no effect
on the game state the claims are about and are not modelled.
-/

/-- Gameplay constants from the `CONSTANTS` hash (src/index.js lines 17-26). -/
def HORIZONTAL_PIPE_SPACING : ℚ := 220

def PIPE_GAP : ℚ := 150

def WARMUP_SECONDS : ℚ := 1

def EDGE_BUFFER : ℚ := 50

def PIPE_WIDTH : ℚ := 50

def PIPE_SPEED : ℚ := 2

/-- Character constants from the `CONST` hash (src/index.js lines 269-276).
`GRAVITY = 0.4` and `FLAP_SPEED = 7.5` are the source literals read exactly. -/
def CAPY_WIDTH : ℚ := 45

def CAPY_HEIGHT : ℚ := 33

def GRAVITY : ℚ := 4 / 10

def FLAP_SPEED : ℚ := 75 / 10

def TERMINAL_VEL : ℚ := 12

/-- Canvas dimensions, as stored in `this.dimensions` of Level and Capy. -/
structure Dimensions where
  width : ℚ
  height : ℚ
deriving DecidableEq

/-- An axis-aligned rectangle record `{left, right, top, bottom}`, the shape of
both the sub-pipe POJOs built by `randomPipe` and the hitbox returned by
`Capy.bounds`. -/
structure Rect where
  left : ℚ
  right : ℚ
  top : ℚ
  bottom : ℚ
deriving DecidableEq

/-- A pipe pair as built by `Level.randomPipe` (src/index.js lines 243-262):
top and bottom sub-pipe rectangles plus the `passed` flag. -/
structure Pipe where
  topPipe : Rect
  bottomPipe : Rect
  passed : Bool
deriving DecidableEq

/-- The gameplay-relevant Level state: its dimensions and the ordered pipe
array (front of the list = index 0 = oldest pair, as in the source). -/
structure Level where
  dimensions : Dimensions
  pipes : List Pipe
deriving DecidableEq

/-- The Capy character state set up by the `Capy` constructor
(src/index.js lines 284-302): dimensions, fixed `x`, vertical `y`,
velocity `vel` (initially 0). The sprite-animation counter is
rendering-only and not modelled. -/
structure Capy where
  dimensions : Dimensions
  x : ℚ
  y : ℚ
  vel : ℚ
deriving DecidableEq

/-- `new Capy(dimensions)`: `x = width / 3`, `y = height / 2`, `vel = 0`. -/
def mkCapy (dimensions : Dimensions) : Capy :=
  ⟨dimensions, dimensions.width / 3, dimensions.height / 2, 0⟩

/-- `Capy.moveCapy` (src/index.js lines 342-362): `y += vel; vel += GRAVITY;`
then if `Math.abs(vel) > TERMINAL_VEL`, reset `vel` to `TERMINAL_VEL` with the
sign given by `vel > 0` (the switch statement). -/
def moveCapy (c : Capy) : Capy :=
  { c with
    y := c.y + c.vel,
    vel :=
      if |c.vel + GRAVITY| > TERMINAL_VEL then
        if c.vel + GRAVITY > 0 then TERMINAL_VEL else TERMINAL_VEL * (-1)
      else c.vel + GRAVITY }

/-- `Capy.flap` (src/index.js lines 366-368): `vel = FLAP_SPEED * -1`. -/
def flap (c : Capy) : Capy :=
  { c with vel := FLAP_SPEED * (-1) }

/-- `Capy.bounds` (src/index.js lines 377-384). -/
def bounds (c : Capy) : Rect :=
  ⟨c.x, c.x + CAPY_WIDTH, c.y, c.y + CAPY_HEIGHT⟩

/-- `Capy.outOfBounds` (src/index.js lines 390-394):
`y < 0 || y + CAPY_HEIGHT > dimensions.height`. -/
def Capy.outOfBounds (c : Capy) : Bool :=
  decide (c.y < 0) || decide (c.y + CAPY_HEIGHT > c.dimensions.height)

/-- One element of a call sequence applied to the character:
either a physics step `moveCapy()` or a `flap()` impulse. -/
inductive CapyAction where
  | move : CapyAction
  | flapAct : CapyAction
deriving DecidableEq

/-- Apply one call of the sequence to the character. -/
def capyStep (c : Capy) (a : CapyAction) : Capy :=
  match a with
  | .move => moveCapy c
  | .flapAct => flap c

/-- Apply a whole call sequence, first call first. -/
def runCapy (c : Capy) (acts : List CapyAction) : Capy :=
  acts.foldl capyStep c

lemma abs_vel_moveCapy (c : Capy) : |(moveCapy c).vel| ≤ TERMINAL_VEL := by
  simp only [moveCapy]
  split
  · split
    · rw [abs_le]
      norm_num [TERMINAL_VEL]
    · rw [abs_le]
      norm_num [TERMINAL_VEL]
  · next h => exact le_of_not_lt h

lemma abs_vel_flap (c : Capy) : |(flap c).vel| ≤ TERMINAL_VEL := by
  simp only [flap]
  rw [abs_le]
  norm_num [FLAP_SPEED, TERMINAL_VEL]

lemma abs_vel_capyStep (c : Capy) (a : CapyAction) :
    |(capyStep c a).vel| ≤ TERMINAL_VEL := by
  cases a with
  | move => exact abs_vel_moveCapy c
  | flapAct => exact abs_vel_flap c

lemma abs_vel_runCapy (c : Capy) (acts : List CapyAction)
    (h : |c.vel| ≤ TERMINAL_VEL) : |(runCapy c acts).vel| ≤ TERMINAL_VEL := by
  induction acts generalizing c with
  | nil => exact h
  | cons a rest ih =>
    exact ih (capyStep c a) (abs_vel_capyStep c a)

/-- C1: starting from the freshly constructed character (velocity 0), after any
sequence of `moveCapy()` / `flap()` calls — hence after every call of any such
sequence, since every prefix of a sequence is itself such a sequence — the
absolute value of the vertical velocity is at most `TERMINAL_VEL = 12`. -/
theorem C1_velocity_clamp (dimensions : Dimensions) (acts : List CapyAction) :
    |(runCapy (mkCapy dimensions) acts).vel| ≤ TERMINAL_VEL := by
  apply abs_vel_runCapy
  show |(0 : ℚ)| ≤ TERMINAL_VEL
  rw [abs_le]
  norm_num [TERMINAL_VEL]

/-- `Level.randomPipe(distance)` (src/index.js lines 243-262). The
`Math.random()` value it consumes is passed explicitly as `r`. -/
def Level.randomPipe (dimensions : Dimensions) (r : ℚ) (distance : ℚ) : Pipe :=
  let heightRange := dimensions.height - 2 * EDGE_BUFFER - PIPE_GAP
  let topOfGap := r * heightRange + EDGE_BUFFER
  { topPipe := ⟨distance, PIPE_WIDTH + distance, 0, topOfGap⟩
    bottomPipe := ⟨distance, PIPE_WIDTH + distance, topOfGap + PIPE_GAP, dimensions.height⟩
    passed := false }

/-- The `Level` constructor (src/index.js lines 36-50): seeds three pipes at
`firstPipeDistance`, `+ HORIZONTAL_PIPE_SPACING` and
`+ 2 * HORIZONTAL_PIPE_SPACING`; the three `Math.random()` values consumed are
passed as `r0 r1 r2`. The background queue is cosmetic and not modelled. -/
def mkLevel (dimensions : Dimensions) (r0 r1 r2 : ℚ) : Level :=
  let firstPipeDistance := dimensions.width + WARMUP_SECONDS * 60 * PIPE_SPEED
  ⟨dimensions,
    [Level.randomPipe dimensions r0 firstPipeDistance,
     Level.randomPipe dimensions r1 (firstPipeDistance + HORIZONTAL_PIPE_SPACING),
     Level.randomPipe dimensions r2 (firstPipeDistance + 2 * HORIZONTAL_PIPE_SPACING)]⟩

/-- The `forEach` body of `Level.movePipes` (src/index.js lines 112-117):
shift all four edges of a pair left by `PIPE_SPEED`. -/
def movePipe (p : Pipe) : Pipe :=
  { p with
    topPipe := { p.topPipe with
      left := p.topPipe.left - PIPE_SPEED, right := p.topPipe.right - PIPE_SPEED }
    bottomPipe := { p.bottomPipe with
      left := p.bottomPipe.left - PIPE_SPEED, right := p.bottomPipe.right - PIPE_SPEED } }

/-- `Level.movePipes` (src/index.js lines 111-134): shift every pair left, then
if the front pair has `topPipe.right <= 0`, shift it off the array and push
`randomPipe(this.pipes[1].topPipe.left + HORIZONTAL_PIPE_SPACING)`, where
`this.pipes[1]` is read from the array after the shift. The source indexes the
array blindly, assuming three live pairs; on arrays with fewer than three pairs
it would dereference `undefined`, so the fallback branches below (empty array;
`none` from the lookup) are unreachable from constructed levels. The
`Math.random()` value the recycle may consume is passed as `r`. -/
def Level.movePipes (lvl : Level) (r : ℚ) : Level :=
  let moved := lvl.pipes.map movePipe
  match moved with
  | [] => ⟨lvl.dimensions, []⟩
  | p0 :: rest =>
    if p0.topPipe.right ≤ 0 then
      match rest[1]? with
      | some p1 =>
        ⟨lvl.dimensions,
          rest ++ [Level.randomPipe lvl.dimensions r
            (p1.topPipe.left + HORIZONTAL_PIPE_SPACING)]⟩
      | none => ⟨lvl.dimensions, rest⟩
    else ⟨lvl.dimensions, p0 :: rest⟩

/-- Repeated frames of `movePipes`, one random value supplied per frame
(the value is only consumed on frames that recycle). -/
def runFrames (lvl : Level) (rands : List ℚ) : Level :=
  rands.foldl Level.movePipes lvl

/-- Consecutive pipe pairs (older first) sit exactly
`HORIZONTAL_PIPE_SPACING` apart. -/
def spacedPipes (pipes : List Pipe) : Prop :=
  List.Chain'
    (fun a b => b.topPipe.left - a.topPipe.left = HORIZONTAL_PIPE_SPACING) pipes

/-- The Level invariant behind C2 and C3: three live pairs, evenly spaced. -/
def levelInv (lvl : Level) : Prop :=
  lvl.pipes.length = 3 ∧ spacedPipes lvl.pipes

lemma levelInv_mkLevel (dimensions : Dimensions) (r0 r1 r2 : ℚ) :
    levelInv (mkLevel dimensions r0 r1 r2) := by
  constructor
  · rfl
  · simp only [mkLevel, spacedPipes, Level.randomPipe, List.chain'_cons,
      List.chain'_singleton, and_true]
    constructor <;> ring

lemma levelInv_movePipes (lvl : Level) (r : ℚ) (h : levelInv lvl) :
    levelInv (lvl.movePipes r) := by
  obtain ⟨hlen, hsp⟩ := h
  obtain ⟨a, b, c, hpipes⟩ := List.length_eq_three.mp hlen
  simp only [spacedPipes, hpipes, List.chain'_cons, List.chain'_singleton,
    and_true] at hsp
  obtain ⟨hab, hbc⟩ := hsp
  simp only [Level.movePipes, hpipes, List.map_cons, List.map_nil]
  split
  · simp only [List.getElem?_cons_succ, List.getElem?_cons_zero,
      List.cons_append, List.nil_append]
    refine ⟨rfl, ?_⟩
    simp only [spacedPipes, List.chain'_cons, List.chain'_singleton, and_true,
      movePipe, Level.randomPipe]
    constructor
    · simpa [movePipe] using hbc
    · ring
  · refine ⟨rfl, ?_⟩
    simp only [spacedPipes, List.chain'_cons, List.chain'_singleton, and_true,
      movePipe]
    constructor
    · simpa using hab
    · simpa using hbc

lemma levelInv_runFrames (lvl : Level) (rands : List ℚ) (h : levelInv lvl) :
    levelInv (runFrames lvl rands) := by
  induction rands generalizing lvl with
  | nil => exact h
  | cons r rest ih =>
    exact ih (lvl.movePipes r) (levelInv_movePipes lvl r h)

/-- C2: for every constructed Level and every number of `movePipes` frames,
whatever the random values, the pipe array holds exactly 3 pairs, and they are
ordered oldest at the front: the left edges strictly increase from the front
(oldest) to the back (newest) of the array, matching creation order. -/
theorem C2_pipe_count_and_order (dimensions : Dimensions) (r0 r1 r2 : ℚ)
    (rands : List ℚ) :
    (runFrames (mkLevel dimensions r0 r1 r2) rands).pipes.length = 3 ∧
    List.Chain' (fun a b => a.topPipe.left < b.topPipe.left)
      (runFrames (mkLevel dimensions r0 r1 r2) rands).pipes := by
  have h := levelInv_runFrames (mkLevel dimensions r0 r1 r2) rands
    (levelInv_mkLevel dimensions r0 r1 r2)
  refine ⟨h.1, ?_⟩
  refine List.Chain'.imp ?_ h.2
  intro a b hd
  have hpos : (0 : ℚ) < HORIZONTAL_PIPE_SPACING := by norm_num [HORIZONTAL_PIPE_SPACING]
  linarith [hd ▸ hpos]

/-- C3: a `movePipes` frame first shifts every edge left by `PIPE_SPEED`
(`movePipe`), then recycles exactly when the shifted front pair has right edge
`<= 0`, appending a pair generated at the left edge of the remaining last pair plus
`HORIZONTAL_PIPE_SPACING` (second conjunct, stated on any three-pair level);
consequently consecutive pairs are `HORIZONTAL_PIPE_SPACING` apart when the
younger one is created and stay so after every frame (first conjunct: the
spacing invariant holds after any number of frames from construction). -/
theorem C3_shift_recycle_spacing (dimensions : Dimensions) (r0 r1 r2 : ℚ)
    (rands : List ℚ) (lvl : Level) (r : ℚ) (a b c : Pipe)
    (h : lvl.pipes = [a, b, c]) :
    spacedPipes (runFrames (mkLevel dimensions r0 r1 r2) rands).pipes ∧
    lvl.movePipes r =
      (if (movePipe a).topPipe.right ≤ 0 then
        ⟨lvl.dimensions, [movePipe b, movePipe c,
          Level.randomPipe lvl.dimensions r
            ((movePipe c).topPipe.left + HORIZONTAL_PIPE_SPACING)]⟩
      else ⟨lvl.dimensions, [movePipe a, movePipe b, movePipe c]⟩) := by
  constructor
  · exact (levelInv_runFrames (mkLevel dimensions r0 r1 r2) rands
      (levelInv_mkLevel dimensions r0 r1 r2)).2
  · simp only [Level.movePipes, h, List.map_cons, List.map_nil]
    split
    · simp
    · rfl

/-- Witness for C3 at concrete inputs: the freshly constructed Level over a
480 × 640 field has pipes at distances 600, 820, 1040, the shifted
right edge of its front pair is 648 > 0, and the frame is exactly the shift
with no recycle. -/
theorem C3_shift_recycle_spacing_witness :
    spacedPipes (runFrames (mkLevel ⟨480, 640⟩ (1/2) (1/2) (1/2)) []).pipes ∧
    Level.movePipes (mkLevel ⟨480, 640⟩ (1/2) (1/2) (1/2)) (1/2) =
      ⟨⟨480, 640⟩, [movePipe (Level.randomPipe ⟨480, 640⟩ (1/2) 600),
        movePipe (Level.randomPipe ⟨480, 640⟩ (1/2) 820),
        movePipe (Level.randomPipe ⟨480, 640⟩ (1/2) 1040)]⟩ := by
  have h := C3_shift_recycle_spacing ⟨480, 640⟩ (1/2) (1/2) (1/2) []
    (mkLevel ⟨480, 640⟩ (1/2) (1/2) (1/2)) (1/2)
    (Level.randomPipe ⟨480, 640⟩ (1/2) 600)
    (Level.randomPipe ⟨480, 640⟩ (1/2) 820)
    (Level.randomPipe ⟨480, 640⟩ (1/2) 1040)
    (by norm_num [mkLevel, WARMUP_SECONDS, PIPE_SPEED, HORIZONTAL_PIPE_SPACING])
  refine ⟨h.1, ?_⟩
  rw [h.2, if_neg (by norm_num [movePipe, Level.randomPipe, PIPE_WIDTH,
    PIPE_SPEED])]
  rfl

/-- C4: every pair generated by `randomPipe(distance)` from a random value in
`[0, 1)` over a field with `fieldHeight - 2 * EDGE_BUFFER - PIPE_GAP >= 0` has
a gap of exactly `PIPE_GAP` (the gap runs from `topPipe.bottom` to
`bottomPipe.top`), the gap inside the edge buffers, both sub-pipes spanning
`[distance, distance + PIPE_WIDTH]` horizontally, and `passed = false`. -/
theorem C4_randomPipe_bounds (dimensions : Dimensions) (r distance : ℚ)
    (hr0 : 0 ≤ r) (hr1 : r < 1)
    (hh : 0 ≤ dimensions.height - 2 * EDGE_BUFFER - PIPE_GAP) :
    (Level.randomPipe dimensions r distance).bottomPipe.top -
      (Level.randomPipe dimensions r distance).topPipe.bottom = PIPE_GAP ∧
    EDGE_BUFFER ≤ (Level.randomPipe dimensions r distance).topPipe.bottom ∧
    (Level.randomPipe dimensions r distance).bottomPipe.top ≤
      dimensions.height - EDGE_BUFFER ∧
    (Level.randomPipe dimensions r distance).topPipe.left = distance ∧
    (Level.randomPipe dimensions r distance).topPipe.right =
      distance + PIPE_WIDTH ∧
    (Level.randomPipe dimensions r distance).bottomPipe.left = distance ∧
    (Level.randomPipe dimensions r distance).bottomPipe.right =
      distance + PIPE_WIDTH ∧
    (Level.randomPipe dimensions r distance).passed = false := by
  have hmul : r * (dimensions.height - 2 * EDGE_BUFFER - PIPE_GAP) ≤
      dimensions.height - 2 * EDGE_BUFFER - PIPE_GAP := by
    nlinarith
  have hmul0 : 0 ≤ r * (dimensions.height - 2 * EDGE_BUFFER - PIPE_GAP) :=
    mul_nonneg hr0 hh
  simp only [Level.randomPipe]
  refine ⟨by ring, ?_, ?_, by trivial, by ring, by trivial, by ring, by trivial⟩
  · linarith
  · linarith

/-- Witness for C4: field 480 × 640 (so the height range is 390 ≥ 0), random
value 1/2, distance 600 satisfy the hypotheses and the theorem applies. -/
theorem C4_randomPipe_bounds_witness :
    (0 : ℚ) ≤ 1/2 ∧ (1/2 : ℚ) < 1 ∧
    (0 : ℚ) ≤ (640 : ℚ) - 2 * EDGE_BUFFER - PIPE_GAP ∧
    ((Level.randomPipe ⟨480, 640⟩ (1/2) 600).bottomPipe.top -
        (Level.randomPipe ⟨480, 640⟩ (1/2) 600).topPipe.bottom = PIPE_GAP ∧
      EDGE_BUFFER ≤ (Level.randomPipe ⟨480, 640⟩ (1/2) 600).topPipe.bottom ∧
      (Level.randomPipe ⟨480, 640⟩ (1/2) 600).bottomPipe.top ≤
        (640 : ℚ) - EDGE_BUFFER ∧
      (Level.randomPipe ⟨480, 640⟩ (1/2) 600).topPipe.left = 600 ∧
      (Level.randomPipe ⟨480, 640⟩ (1/2) 600).topPipe.right =
        600 + PIPE_WIDTH ∧
      (Level.randomPipe ⟨480, 640⟩ (1/2) 600).bottomPipe.left = 600 ∧
      (Level.randomPipe ⟨480, 640⟩ (1/2) 600).bottomPipe.right =
        600 + PIPE_WIDTH ∧
      (Level.randomPipe ⟨480, 640⟩ (1/2) 600).passed = false) :=
  ⟨by norm_num, by norm_num, by norm_num [EDGE_BUFFER, PIPE_GAP],
    C4_randomPipe_bounds ⟨480, 640⟩ (1/2) 600 (by norm_num) (by norm_num)
      (by norm_num [EDGE_BUFFER, PIPE_GAP])⟩

/-- The `_overlap` fat-arrow helper inside `Level.collidesWith`
(src/index.js lines 186-194): false when the rectangles are strictly separated
on the horizontal axis, else false when strictly separated on the vertical
axis, else true. -/
def _overlap (pipe : Rect) (capy : Rect) : Bool :=
  if decide (pipe.left > capy.right) || decide (pipe.right < capy.left) then
    false
  else if decide (pipe.top > capy.bottom) || decide (pipe.bottom < capy.top) then
    false
  else true

/-- `Level.collidesWith` (src/index.js lines 181-212): a `collision` flag
starts `false` and the `eachPipe` loop sets it `true` whenever either sub-pipe
of a pair overlaps the character bounds. -/
def collidesWith (pipes : List Pipe) (capyBound : Rect) : Bool :=
  pipes.foldl
    (fun collision pipe =>
      if _overlap pipe.topPipe capyBound || _overlap pipe.bottomPipe capyBound
      then true else collision)
    false

lemma foldl_collision (capyBound : Rect) (pipes : List Pipe) (b : Bool) :
    pipes.foldl
      (fun collision pipe =>
        if _overlap pipe.topPipe capyBound || _overlap pipe.bottomPipe capyBound
        then true else collision) b =
    (b || pipes.any (fun pipe =>
      _overlap pipe.topPipe capyBound || _overlap pipe.bottomPipe capyBound)) := by
  induction pipes generalizing b with
  | nil => simp
  | cons p rest ih =>
    simp only [List.foldl_cons, List.any_cons, ih]
    by_cases h : (_overlap p.topPipe capyBound || _overlap p.bottomPipe capyBound) = true
    · simp [h]
    · simp only [Bool.not_eq_true] at h
      simp [h]

lemma collidesWith_eq_any (pipes : List Pipe) (capyBound : Rect) :
    collidesWith pipes capyBound =
      pipes.any (fun pipe =>
        _overlap pipe.topPipe capyBound || _overlap pipe.bottomPipe capyBound) := by
  rw [collidesWith, foldl_collision, Bool.false_or]

/-- C5: `collidesWith` returns true iff the top or bottom sub-pipe of some
live pair overlaps the character bounds (first conjunct); the `_overlap` test
holds exactly when the rectangles are not strictly separated on either axis,
so touching edges count as overlap (second conjunct); and any level holding a
pair whose top sub-pipe is `{left:90, right:140, top:0, bottom:50}` collides
with character bounds `{left:100, right:145, top:0, bottom:33}` (third
conjunct). -/
theorem C5_collidesWith_characterisation (pipes : List Pipe) (capyBound : Rect)
    (pipes2 : List Pipe) (p : Pipe) (hmem : p ∈ pipes2)
    (htop : p.topPipe = ⟨90, 140, 0, 50⟩) :
    (collidesWith pipes capyBound = true ↔
      ∃ q ∈ pipes, _overlap q.topPipe capyBound = true ∨
        _overlap q.bottomPipe capyBound = true) ∧
    (∀ a b : Rect, _overlap a b = true ↔
      ¬(a.left > b.right ∨ a.right < b.left ∨
        a.top > b.bottom ∨ a.bottom < b.top)) ∧
    collidesWith pipes2 ⟨100, 145, 0, 33⟩ = true := by
  have hchar : ∀ a b : Rect, _overlap a b = true ↔
      ¬(a.left > b.right ∨ a.right < b.left ∨
        a.top > b.bottom ∨ a.bottom < b.top) := by
    intro a b
    simp only [_overlap]
    split_ifs with h1 h2
    · simp only [Bool.or_eq_true, decide_eq_true_eq] at h1
      refine iff_of_false (by simp) ?_
      simp only [not_not]
      tauto
    · simp only [Bool.or_eq_true, decide_eq_true_eq] at h2
      refine iff_of_false (by simp) ?_
      simp only [not_not]
      tauto
    · simp only [Bool.or_eq_true, decide_eq_true_eq] at h1 h2
      push_neg at h1 h2
      refine iff_of_true rfl ?_
      push_neg
      exact ⟨h1.1, h1.2, h2.1, h2.2⟩
  refine ⟨?_, hchar, ?_⟩
  · rw [collidesWith_eq_any, List.any_eq_true]
    simp only [Bool.or_eq_true]
  · rw [collidesWith_eq_any, List.any_eq_true]
    refine ⟨p, hmem, ?_⟩
    rw [Bool.or_eq_true]
    left
    rw [hchar, htop]
    norm_num

/-- Witness for C5: a concrete single-pair level containing the scenario top
sub-pipe; the membership and shape hypotheses hold by computation. -/
theorem C5_collidesWith_characterisation_witness :
    (collidesWith [⟨⟨90, 140, 0, 50⟩, ⟨90, 140, 200, 640⟩, false⟩]
        ⟨100, 145, 0, 33⟩ = true ↔
      ∃ q ∈ [(⟨⟨90, 140, 0, 50⟩, ⟨90, 140, 200, 640⟩, false⟩ : Pipe)],
        _overlap q.topPipe ⟨100, 145, 0, 33⟩ = true ∨
        _overlap q.bottomPipe ⟨100, 145, 0, 33⟩ = true) ∧
    (∀ a b : Rect, _overlap a b = true ↔
      ¬(a.left > b.right ∨ a.right < b.left ∨
        a.top > b.bottom ∨ a.bottom < b.top)) ∧
    collidesWith [⟨⟨90, 140, 0, 50⟩, ⟨90, 140, 200, 640⟩, false⟩]
      ⟨100, 145, 0, 33⟩ = true :=
  C5_collidesWith_characterisation
    [⟨⟨90, 140, 0, 50⟩, ⟨90, 140, 200, 640⟩, false⟩] ⟨100, 145, 0, 33⟩
    [⟨⟨90, 140, 0, 50⟩, ⟨90, 140, 200, 640⟩, false⟩]
    ⟨⟨90, 140, 0, 50⟩, ⟨90, 140, 200, 640⟩, false⟩
    (List.mem_singleton.mpr rfl) rfl

/-- `Level.passedPipe` (src/index.js lines 223-232): for each pair whose top
sub-pipe has its right edge strictly left of the character left edge and whose
`passed` flag is still false, set the flag and invoke the callback. The
embedding returns the updated pipe array together with the number of callback
invocations the loop performed. -/
def passedPipe (pipes : List Pipe) (capy : Rect) : List Pipe × Nat :=
  match pipes with
  | [] => ([], 0)
  | p :: rest =>
    let hd : Pipe × Nat :=
      if p.topPipe.right < capy.left then
        if p.passed then (p, 0) else ({ p with passed := true }, 1)
      else (p, 0)
    let tl := passedPipe rest capy
    (hd.1 :: tl.1, hd.2 + tl.2)

lemma passedPipe_count (pipes : List Pipe) (capy : Rect) :
    (passedPipe pipes capy).2 =
      (pipes.filter (fun p =>
        decide (p.topPipe.right < capy.left) && !p.passed)).length := by
  induction pipes with
  | nil => rfl
  | cons p rest ih =>
    simp only [passedPipe, List.filter_cons]
    by_cases hlt : p.topPipe.right < capy.left
    · by_cases hp : p.passed
      · simp [hlt, hp, ih]
      · simp only [hlt, hp, if_true, if_false, ite_true, ite_false,
          decide_true_eq_true]
        simp [ih]
        omega
    · simp [hlt, ih]

lemma passedPipe_state (pipes : List Pipe) (capy : Rect) :
    (passedPipe pipes capy).1 =
      pipes.map (fun p =>
        if p.topPipe.right < capy.left then { p with passed := true } else p) := by
  induction pipes with
  | nil => rfl
  | cons p rest ih =>
    simp only [passedPipe, List.map_cons]
    by_cases hlt : p.topPipe.right < capy.left
    · by_cases hp : p.passed
      · have : { p with passed := true } = p := by
          cases p
          simp_all
        simp [hlt, hp, ih, this]
      · simp [hlt, hp, ih]
    · simp [hlt, ih]

/-- C6: the `passedPipe` query invokes the callback exactly once for each pair
whose right edge is strictly left of the left edge of the character bounds and whose
`passed` flag is false (first conjunct: the invocation count is the number of
such pairs — in particular a pair already marked `passed` never fires, on this
or any later query with any bounds, since the first conjunct holds for every
pipe list and bounds); it marks exactly the pairs left of the character as
passed (second conjunct); and re-querying the updated level with the same
bounds fires no callback at all (third conjunct). -/
theorem C6_passedPipe_once (pipes : List Pipe) (capy : Rect) :
    (passedPipe pipes capy).2 =
      (pipes.filter (fun p =>
        decide (p.topPipe.right < capy.left) && !p.passed)).length ∧
    (passedPipe pipes capy).1 =
      pipes.map (fun p =>
        if p.topPipe.right < capy.left then { p with passed := true } else p) ∧
    (passedPipe (passedPipe pipes capy).1 capy).2 = 0 := by
  refine ⟨passedPipe_count pipes capy, passedPipe_state pipes capy, ?_⟩
  rw [passedPipe_count, passedPipe_state, List.length_eq_zero]
  rw [List.filter_eq_nil_iff]
  intro p hp
  rw [List.mem_map] at hp
  obtain ⟨q, hq, rfl⟩ := hp
  by_cases hlt : q.topPipe.right < capy.left
  · simp [hlt]
  · simp [hlt]

/-- The `eachPipe` loop of `collidesWith` with its effect on the pipe array
made explicit: the callback body (src/index.js lines 206-210) only reads
`pipe.topPipe` / `pipe.bottomPipe` and writes the local `collision` flag, so
each pipe is returned as the body leaves it — unchanged — while the flag
accumulates. Returning the array the loop leaves behind makes the frame
condition of C10 a provable statement instead of a modelling assumption. -/
def collidesWithLoop (capyBound : Rect) :
    List Pipe → Bool → List Pipe × Bool
  | [], collision => ([], collision)
  | p :: rest, collision =>
    let collision1 :=
      if _overlap p.topPipe capyBound || _overlap p.bottomPipe capyBound
      then true else collision
    let tl := collidesWithLoop capyBound rest collision1
    (p :: tl.1, tl.2)

lemma collidesWithLoop_fst (capyBound : Rect) (pipes : List Pipe) (b : Bool) :
    (collidesWithLoop capyBound pipes b).1 = pipes := by
  induction pipes generalizing b with
  | nil => rfl
  | cons p rest ih => simp [collidesWithLoop, ih]

lemma collidesWithLoop_snd (capyBound : Rect) (pipes : List Pipe) (b : Bool) :
    (collidesWithLoop capyBound pipes b).2 =
      (b || pipes.any (fun pipe =>
        _overlap pipe.topPipe capyBound || _overlap pipe.bottomPipe capyBound)) := by
  induction pipes generalizing b with
  | nil => simp [collidesWithLoop]
  | cons p rest ih =>
    simp only [collidesWithLoop, List.any_cons, ih]
    by_cases h : (_overlap p.topPipe capyBound ||
        _overlap p.bottomPipe capyBound) = true
    · simp [h]
    · simp only [Bool.not_eq_true] at h
      simp [h]

/-- C10: `collidesWith` is a pure query on the Level state: the pipe array the
iteration leaves behind is the input array, with the edges and `passed`
flag of every pipe unchanged (first conjunct); the flag it accumulates is exactly the
`collidesWith` result (second conjunct); and the boolean result is a
deterministic function of the sub-pipe rectangles and the argument alone — two
pipe arrays whose pairs carry the same rectangles, whatever their `passed`
flags, give the same result (third conjunct). No random value is consumed:
none appears among the arguments of the function. -/
theorem C10_collidesWith_pure (pipes pipes2 : List Pipe) (capyBound : Rect)
    (h : pipes.map (fun p => (p.topPipe, p.bottomPipe)) =
      pipes2.map (fun p => (p.topPipe, p.bottomPipe))) :
    (collidesWithLoop capyBound pipes false).1 = pipes ∧
    (collidesWithLoop capyBound pipes false).2 = collidesWith pipes capyBound ∧
    collidesWith pipes capyBound = collidesWith pipes2 capyBound := by
  have key : ∀ l : List Pipe,
      (l.any fun pipe =>
        _overlap pipe.topPipe capyBound || _overlap pipe.bottomPipe capyBound) =
      ((l.map fun p => (p.topPipe, p.bottomPipe)).any fun q =>
        _overlap q.1 capyBound || _overlap q.2 capyBound) := by
    intro l
    induction l with
    | nil => rfl
    | cons p rest ih => simp only [List.map_cons, List.any_cons, ih]
  refine ⟨collidesWithLoop_fst _ _ _, ?_, ?_⟩
  · rw [collidesWithLoop_snd, collidesWith_eq_any, Bool.false_or]
  · rw [collidesWith_eq_any, collidesWith_eq_any, key pipes, key pipes2, h]

/-- Witness for C10 at concrete inputs: two single-pair arrays carrying the
same rectangles but opposite `passed` flags; the rectangle-projection
hypothesis holds by computation and the collision results agree. -/
theorem C10_collidesWith_pure_witness :
    (collidesWithLoop ⟨100, 145, 0, 33⟩
        [⟨⟨90, 140, 0, 50⟩, ⟨90, 140, 200, 640⟩, false⟩] false).1 =
      [⟨⟨90, 140, 0, 50⟩, ⟨90, 140, 200, 640⟩, false⟩] ∧
    (collidesWithLoop ⟨100, 145, 0, 33⟩
        [⟨⟨90, 140, 0, 50⟩, ⟨90, 140, 200, 640⟩, false⟩] false).2 =
      collidesWith [⟨⟨90, 140, 0, 50⟩, ⟨90, 140, 200, 640⟩, false⟩]
        ⟨100, 145, 0, 33⟩ ∧
    collidesWith [⟨⟨90, 140, 0, 50⟩, ⟨90, 140, 200, 640⟩, false⟩]
        ⟨100, 145, 0, 33⟩ =
      collidesWith [⟨⟨90, 140, 0, 50⟩, ⟨90, 140, 200, 640⟩, true⟩]
        ⟨100, 145, 0, 33⟩ :=
  C10_collidesWith_pure
    [⟨⟨90, 140, 0, 50⟩, ⟨90, 140, 200, 640⟩, false⟩]
    [⟨⟨90, 140, 0, 50⟩, ⟨90, 140, 200, 640⟩, true⟩]
    ⟨100, 145, 0, 33⟩ rfl

/-- C9: `outOfBounds` returns true iff the vertical position of the character is
strictly below 0 or its position plus `CAPY_HEIGHT` strictly exceeds the field
height (first conjunct); in particular it returns true for a character at
`y = 640` on a 640-high field, since `640 + 33 > 640` (second conjunct). -/
theorem C9_outOfBounds_iff (c : Capy) :
    (c.outOfBounds = true ↔
      (c.y < 0 ∨ c.y + CAPY_HEIGHT > c.dimensions.height)) ∧
    Capy.outOfBounds ⟨⟨480, 640⟩, 160, 640, 0⟩ = true := by
  constructor
  · simp [Capy.outOfBounds]
  · norm_num [Capy.outOfBounds, CAPY_HEIGHT]

/-- C7 counterexample: with `fieldHeight = 200` the configuration is malformed
(`PIPE_GAP + 2 * EDGE_BUFFER = 250 > 200`, height range `-50`), yet Level
construction does not fail: it returns a normal 3-pair level whose front pair
(random value `1/2`) has `gapTop = 25 < EDGE_BUFFER` and
`gapBottom = 175 > fieldHeight - EDGE_BUFFER = 150` — the silent out-of-spec
gap the claim says a conforming implementation would reject. -/
theorem C7_counterexample :
    PIPE_GAP + 2 * EDGE_BUFFER > (200 : ℚ) ∧
    (mkLevel ⟨480, 200⟩ (1/2) (1/2) (1/2)).pipes.length = 3 ∧
    (mkLevel ⟨480, 200⟩ (1/2) (1/2) (1/2)).pipes.head? =
      some ⟨⟨600, 650, 0, 25⟩, ⟨600, 650, 175, 200⟩, false⟩ ∧
    (25 : ℚ) < EDGE_BUFFER ∧ (175 : ℚ) > (200 : ℚ) - EDGE_BUFFER := by
  refine ⟨by norm_num [PIPE_GAP, EDGE_BUFFER], rfl, ?_,
    by norm_num [EDGE_BUFFER], by norm_num [EDGE_BUFFER]⟩
  simp only [mkLevel, Level.randomPipe, List.head?_cons, Option.some.injEq]
  norm_num [WARMUP_SECONDS, PIPE_SPEED, PIPE_WIDTH, EDGE_BUFFER, PIPE_GAP]

/-- C7 amended: Level construction performs no configuration validation. When
`PIPE_GAP + 2 * EDGE_BUFFER > fieldHeight` (negative height range), it still
returns a normal level of 3 pairs, and for every random value in `[0, 1)` the
generated front pair has its gap bottom strictly below
`fieldHeight - EDGE_BUFFER`, i.e. the gap silently violates the edge-buffer
bounds instead of construction failing fast. -/
theorem C7_no_validation (dimensions : Dimensions) (r0 r1 r2 : ℚ)
    (hbad : dimensions.height - 2 * EDGE_BUFFER - PIPE_GAP < 0)
    (hr0 : 0 ≤ r0) (hr1 : r0 < 1) :
    (mkLevel dimensions r0 r1 r2).pipes.length = 3 ∧
    ∃ p ∈ (mkLevel dimensions r0 r1 r2).pipes,
      p.bottomPipe.top > dimensions.height - EDGE_BUFFER := by
  refine ⟨rfl, ?_⟩
  refine ⟨Level.randomPipe dimensions r0
    (dimensions.width + WARMUP_SECONDS * 60 * PIPE_SPEED), ?_, ?_⟩
  · simp [mkLevel]
  · simp only [Level.randomPipe]
    have h2 : (1 - r0) * (dimensions.height - 2 * EDGE_BUFFER - PIPE_GAP) < 0 :=
      mul_neg_of_pos_of_neg (by linarith) hbad
    nlinarith [h2]

/-- Witness for the amended C7: field 480 × 200 (height range `-50 < 0`) and
random value `1/2` satisfy the hypotheses and the theorem applies. -/
theorem C7_no_validation_witness :
    ((480 : ℚ), (200 : ℚ)).2 - 2 * EDGE_BUFFER - PIPE_GAP < 0 ∧
    ((mkLevel ⟨480, 200⟩ (1/2) (1/3) (1/4)).pipes.length = 3 ∧
      ∃ p ∈ (mkLevel ⟨480, 200⟩ (1/2) (1/3) (1/4)).pipes,
        p.bottomPipe.top > (200 : ℚ) - EDGE_BUFFER) :=
  ⟨by norm_num [EDGE_BUFFER, PIPE_GAP],
    C7_no_validation ⟨480, 200⟩ (1/2) (1/3) (1/4)
      (by norm_num [EDGE_BUFFER, PIPE_GAP]) (by norm_num) (by norm_num)⟩

/-- The orchestrator session state (class `FlappyCapy`, src/index.js lines
399-503): current level, character, score and run flag. The canvas, audio
handles and the background bootstrap flag are rendering-only and not
modelled. Note that `moveCapy` is invoked from the separate
`animateLevelBackground` loop, not from `animate`, so an `animate` frame does
not advance the character. -/
structure GameState where
  level : Level
  capy : Capy
  score : Nat
  running : Bool
deriving DecidableEq

/-- `FlappyCapy.gameOver` (src/index.js lines 546-548). -/
def gameOver (g : GameState) : Bool :=
  collidesWith g.level.pipes (bounds g.capy) || g.capy.outOfBounds

/-- The state-resetting part of `FlappyCapy.restart` (src/index.js lines
486-503): `running = false`, a fresh Level (consuming three random values), a
fresh Capy, `score = 0`. The trailing synchronous `this.animate()` call the
source makes inside `restart` is modelled at the call site in `animate`
below; the audio statements are rendering-only. The random stream is `rs`,
consumed from index `i` on; the next unconsumed index is returned. -/
def restartState (dimensions : Dimensions) (rs : Nat → ℚ) (i : Nat) :
    GameState × Nat :=
  (⟨mkLevel dimensions (rs i) (rs (i + 1)) (rs (i + 2)),
    mkCapy dimensions, 0, false⟩, i + 3)

/-- One synchronous run of `FlappyCapy.animate` (src/index.js lines 418-450):
`level.animate` advances the pipes (consuming one potential random value);
if `gameOver()` then holds, `restart()` replaces level, capy, score and run
flag and synchronously re-runs `animate` on the fresh fields (that recursion
is bounded by `fuel`; fuel 0 returns the state as-is, a branch the claims
never reach since they supply sufficient fuel); after `restart` returns, the
frame continues: `passedPipe` runs on the current fields, adding its callback
count to the score. The `requestAnimationFrame` re-scheduling at the end of
the source frame is asynchronous — a later tick — and so not part of this
synchronous frame. -/
def animate (dimensions : Dimensions) (rs : Nat → ℚ) :
    Nat → GameState → Nat → GameState × Nat
  | 0, g, i => (g, i)
  | fuel + 1, g, i =>
    let g1 : GameState := { g with level := g.level.movePipes (rs i) }
    let st2 : GameState × Nat :=
      if gameOver g1 then
        let rst := restartState dimensions rs (i + 1)
        animate dimensions rs fuel rst.1 rst.2
      else (g1, i + 1)
    let pr := passedPipe st2.1.level.pipes (bounds st2.1.capy)
    ({ st2.1 with
        level := ⟨st2.1.level.dimensions, pr.1⟩,
        score := st2.1.score + pr.2 }, st2.2)

lemma outOfBounds_mkCapy (dimensions : Dimensions)
    (hh : 66 ≤ dimensions.height) : (mkCapy dimensions).outOfBounds = false := by
  simp only [Capy.outOfBounds, mkCapy, Bool.or_eq_false_iff,
    decide_eq_false_iff_not]
  norm_num [CAPY_HEIGHT]
  constructor <;> linarith

lemma overlap_false_of_left (a b : Rect) (h : a.left > b.right) :
    _overlap a b = false := by
  simp only [_overlap]
  have hc : (decide (a.left > b.right) || decide (a.right < b.left)) = true := by
    simp [h]
  rw [if_pos hc]

lemma collidesWith_false (pipes : List Pipe) (cap : Rect)
    (h : ∀ p ∈ pipes, _overlap p.topPipe cap = false ∧
      _overlap p.bottomPipe cap = false) :
    collidesWith pipes cap = false := by
  rw [collidesWith_eq_any]
  rw [List.any_eq_false]
  intro p hp
  simp [(h p hp).1, (h p hp).2]

lemma passedPipe_none (pipes : List Pipe) (cap : Rect)
    (h : ∀ p ∈ pipes, ¬ p.topPipe.right < cap.left) :
    passedPipe pipes cap = (pipes, 0) := by
  induction pipes with
  | nil => rfl
  | cons p rest ih =>
    simp only [passedPipe]
    rw [if_neg (h p (List.mem_cons_self p rest))]
    have hr := ih (fun q hq => h q (List.mem_cons_of_mem p hq))
    simp [hr]

lemma movePipes_mkLevel (dimensions : Dimensions) (r0 r1 r2 r : ℚ)
    (hw : 0 ≤ dimensions.width) :
    Level.movePipes (mkLevel dimensions r0 r1 r2) r =
      ⟨dimensions, (mkLevel dimensions r0 r1 r2).pipes.map movePipe⟩ := by
  simp only [mkLevel, Level.movePipes, List.map_cons, List.map_nil]
  rw [if_neg]
  simp only [movePipe, Level.randomPipe]
  push_neg
  norm_num [PIPE_WIDTH, WARMUP_SECONDS, PIPE_SPEED]
  linarith

lemma fresh_pipe_far (dimensions : Dimensions) (r x : ℚ)
    (hx : dimensions.width + WARMUP_SECONDS * 60 * PIPE_SPEED ≤ x)
    (hw : 0 ≤ dimensions.width) :
    ((_overlap (movePipe (Level.randomPipe dimensions r x)).topPipe
        (bounds (mkCapy dimensions)) = false ∧
      _overlap (movePipe (Level.randomPipe dimensions r x)).bottomPipe
        (bounds (mkCapy dimensions)) = false) ∧
     ¬ (movePipe (Level.randomPipe dimensions r x)).topPipe.right <
        (bounds (mkCapy dimensions)).left) := by
  have hxw : dimensions.width + 120 ≤ x := by
    norm_num [WARMUP_SECONDS, PIPE_SPEED] at hx
    linarith
  refine ⟨⟨overlap_false_of_left _ _ ?_, overlap_false_of_left _ _ ?_⟩, ?_⟩
  · simp only [movePipe, Level.randomPipe, bounds, mkCapy]
    norm_num [CAPY_WIDTH, PIPE_SPEED]
    linarith
  · simp only [movePipe, Level.randomPipe, bounds, mkCapy]
    norm_num [CAPY_WIDTH, PIPE_SPEED]
    linarith
  · simp only [movePipe, Level.randomPipe, bounds, mkCapy]
    push_neg
    norm_num [PIPE_WIDTH, PIPE_SPEED]
    linarith

lemma fresh_far (dimensions : Dimensions) (r0 r1 r2 : ℚ)
    (hw : 0 ≤ dimensions.width) :
    ∀ p ∈ (mkLevel dimensions r0 r1 r2).pipes.map movePipe,
      ((_overlap p.topPipe (bounds (mkCapy dimensions)) = false ∧
        _overlap p.bottomPipe (bounds (mkCapy dimensions)) = false) ∧
       ¬ p.topPipe.right < (bounds (mkCapy dimensions)).left) := by
  intro p hp
  simp only [mkLevel, List.map_cons, List.map_nil, List.mem_cons,
    List.not_mem_nil, or_false] at hp
  rcases hp with rfl | rfl | rfl
  · exact fresh_pipe_far dimensions _ _ (le_refl _) hw
  · refine fresh_pipe_far dimensions _ _ ?_ hw
    norm_num [HORIZONTAL_PIPE_SPACING]
  · refine fresh_pipe_far dimensions _ _ ?_ hw
    norm_num [HORIZONTAL_PIPE_SPACING]

lemma gameOver_fresh (dimensions : Dimensions) (r0 r1 r2 r : ℚ)
    (hw : 0 ≤ dimensions.width) (hh : 66 ≤ dimensions.height) :
    gameOver ⟨Level.movePipes (mkLevel dimensions r0 r1 r2) r,
      mkCapy dimensions, 0, false⟩ = false := by
  simp only [gameOver]
  rw [movePipes_mkLevel dimensions r0 r1 r2 r hw]
  simp only [collidesWith_false _ _ (fun p hp => (fresh_far dimensions r0 r1 r2 hw p hp).1),
    outOfBounds_mkCapy dimensions hh, Bool.or_false]

lemma animate_fresh (dimensions : Dimensions) (rs : Nat → ℚ) (fuel i : Nat)
    (hw : 0 ≤ dimensions.width) (hh : 66 ≤ dimensions.height) :
    animate dimensions rs (fuel + 1)
      ⟨mkLevel dimensions (rs i) (rs (i + 1)) (rs (i + 2)),
        mkCapy dimensions, 0, false⟩ (i + 3) =
    (⟨Level.movePipes (mkLevel dimensions (rs i) (rs (i + 1)) (rs (i + 2)))
        (rs (i + 3)), mkCapy dimensions, 0, false⟩, i + 4) := by
  simp only [animate]
  rw [if_neg]
  · rw [movePipes_mkLevel dimensions (rs i) (rs (i + 1)) (rs (i + 2)) (rs (i + 3)) hw]
    rw [passedPipe_none _ _
      (fun p hp => (fresh_far dimensions (rs i) (rs (i + 1)) (rs (i + 2)) hw p hp).2)]
    rfl
  · rw [gameOver_fresh dimensions (rs i) (rs (i + 1)) (rs (i + 2)) (rs (i + 3)) hw hh]
    simp

/-- C8: whatever the session state (any score accumulated from passed pipes,
any level and character) and whatever the random values, a frame whose
game-over predicate (`collidesWith(bounds()) || outOfBounds()`, evaluated
after the pipe advance of the frame) holds ends with the session reset: the frame
returns score 0, run flag false (idle), a fresh character, and a fresh level
built from three newly generated pairs (advanced by the one `movePipes` call
of the synchronous `animate` run inside `restart`); that level still has
exactly 3 pairs, all with `passed = false`, and neither the passed-pipe query
inside the restart frame nor the one after the reset in the outer frame
increments the new score, which is 0. Hypotheses: non-negative field width and
field height at least 66 (so the fresh character is not immediately out of
bounds), and fuel at least 2 covering the one synchronous restart recursion. -/
theorem C8_gameOver_resets (dimensions : Dimensions) (rs : Nat → ℚ)
    (g : GameState) (i fuel : Nat)
    (hw : 0 ≤ dimensions.width) (hh : 66 ≤ dimensions.height)
    (hover : gameOver { g with level := g.level.movePipes (rs i) } = true) :
    animate dimensions rs (fuel + 2) g i =
      (⟨Level.movePipes
          (mkLevel dimensions (rs (i + 1)) (rs (i + 2)) (rs (i + 3)))
          (rs (i + 4)), mkCapy dimensions, 0, false⟩, i + 5) ∧
    (animate dimensions rs (fuel + 2) g i).1.level.pipes.length = 3 ∧
    ∀ p ∈ (animate dimensions rs (fuel + 2) g i).1.level.pipes,
      p.passed = false := by
  have hmain : animate dimensions rs (fuel + 2) g i =
      (⟨Level.movePipes
          (mkLevel dimensions (rs (i + 1)) (rs (i + 2)) (rs (i + 3)))
          (rs (i + 4)), mkCapy dimensions, 0, false⟩, i + 5) := by
    show animate dimensions rs (fuel + 1 + 1) g i = _
    simp only [animate]
    rw [if_pos hover]
    simp only [restartState]
    rw [movePipes_mkLevel dimensions (rs (i + 1)) (rs (i + 1 + 1))
      (rs (i + 1 + 2)) (rs (i + 1 + 3)) hw]
    have hGO : gameOver ⟨⟨dimensions,
        (mkLevel dimensions (rs (i + 1)) (rs (i + 1 + 1))
          (rs (i + 1 + 2))).pipes.map movePipe⟩,
        mkCapy dimensions, 0, false⟩ = false := by
      have hg := gameOver_fresh dimensions (rs (i + 1)) (rs (i + 1 + 1))
        (rs (i + 1 + 2)) (rs (i + 1 + 3)) hw hh
      rwa [movePipes_mkLevel dimensions (rs (i + 1)) (rs (i + 1 + 1))
        (rs (i + 1 + 2)) (rs (i + 1 + 3)) hw] at hg
    rw [if_neg (by rw [hGO]; simp)]
    have hpp := passedPipe_none
      ((mkLevel dimensions (rs (i + 1)) (rs (i + 1 + 1))
        (rs (i + 1 + 2))).pipes.map movePipe)
      (bounds (mkCapy dimensions))
      (fun p hp =>
        (fresh_far dimensions (rs (i + 1)) (rs (i + 1 + 1)) (rs (i + 1 + 2))
          hw p hp).2)
    dsimp only
    rw [hpp]
    dsimp only
    rw [hpp]
    rfl
  refine ⟨hmain, ?_, ?_⟩
  · rw [hmain]
    show (Level.movePipes
      (mkLevel dimensions (rs (i + 1)) (rs (i + 2)) (rs (i + 3)))
      (rs (i + 4))).pipes.length = 3
    rw [movePipes_mkLevel dimensions (rs (i + 1)) (rs (i + 2)) (rs (i + 3))
      (rs (i + 4)) hw]
    simp [mkLevel]
  · rw [hmain]
    intro p hp
    show p.passed = false
    rw [show (⟨Level.movePipes
        (mkLevel dimensions (rs (i + 1)) (rs (i + 2)) (rs (i + 3)))
        (rs (i + 4)), mkCapy dimensions, 0, false⟩ : GameState).level =
      Level.movePipes (mkLevel dimensions (rs (i + 1)) (rs (i + 2)) (rs (i + 3)))
        (rs (i + 4)) from rfl,
      movePipes_mkLevel dimensions (rs (i + 1)) (rs (i + 2)) (rs (i + 3))
        (rs (i + 4)) hw] at hp
    simp only [mkLevel, List.map_cons, List.map_nil, List.mem_cons,
      List.not_mem_nil, or_false] at hp
    rcases hp with rfl | rfl | rfl <;> rfl

/-- Witness for C8 at concrete inputs: a 480 × 640 field, a session holding
score 5 and a character at `y = 640` (out of bounds, so the game-over
predicate of the frame holds), constant random stream 1/2, fuel 2; the
theorem applies and
the frame ends reset. -/
theorem C8_gameOver_resets_witness :
    (0 : ℚ) ≤ 480 ∧ (66 : ℚ) ≤ 640 ∧
    gameOver ⟨Level.movePipes (mkLevel ⟨480, 640⟩ (1/2) (1/2) (1/2)) (1/2),
      ⟨⟨480, 640⟩, 160, 640, 0⟩, 5, true⟩ = true ∧
    (animate ⟨480, 640⟩ (fun _ => (1 : ℚ)/2) 2
        ⟨mkLevel ⟨480, 640⟩ (1/2) (1/2) (1/2),
          ⟨⟨480, 640⟩, 160, 640, 0⟩, 5, true⟩ 0 =
      (⟨Level.movePipes (mkLevel ⟨480, 640⟩ (1/2) (1/2) (1/2)) (1/2),
        mkCapy ⟨480, 640⟩, 0, false⟩, 5) ∧
     (animate ⟨480, 640⟩ (fun _ => (1 : ℚ)/2) 2
        ⟨mkLevel ⟨480, 640⟩ (1/2) (1/2) (1/2),
          ⟨⟨480, 640⟩, 160, 640, 0⟩, 5, true⟩ 0).1.level.pipes.length = 3 ∧
     ∀ p ∈ (animate ⟨480, 640⟩ (fun _ => (1 : ℚ)/2) 2
        ⟨mkLevel ⟨480, 640⟩ (1/2) (1/2) (1/2),
          ⟨⟨480, 640⟩, 160, 640, 0⟩, 5, true⟩ 0).1.level.pipes,
       p.passed = false) := by
  have hb : Capy.outOfBounds ⟨⟨480, 640⟩, 160, 640, 0⟩ = true := by
    norm_num [Capy.outOfBounds, CAPY_HEIGHT]
  have hover : gameOver
      ⟨Level.movePipes (mkLevel ⟨480, 640⟩ (1/2) (1/2) (1/2)) (1/2),
        ⟨⟨480, 640⟩, 160, 640, 0⟩, 5, true⟩ = true := by
    simp [gameOver, hb]
  exact ⟨by norm_num, by norm_num, hover,
    C8_gameOver_resets ⟨480, 640⟩ (fun _ => (1 : ℚ)/2)
      ⟨mkLevel ⟨480, 640⟩ (1/2) (1/2) (1/2),
        ⟨⟨480, 640⟩, 160, 640, 0⟩, 5, true⟩ 0 0
      (by norm_num) (by norm_num) hover⟩
